import Mathlib

/-!
Verification development for the typescript-partial-lib-dom repository.

The repository has two parts with behaviour worth checking:

* a build script (the output normalizer): it invokes the TypeScript compiler into a
  temporary staging directory, then walks that directory recursively, copying every
  file whose name ends in a qualifying suffix into the configured output directory
  with a license header prepended, and removing the staging tree as it goes; and
* a small runtime library (utils.ts, EnvironmentError.ts) of wrappers that run a
  function only when the global window is defined.

The `Build` namespace embeds the build script; the `Lib` namespace embeds the
runtime library.  File systems are modelled as finite trees, JavaScript promises as
a sequential evaluation with an explicit distinction between errors that are awaited
(and so reject the surrounding promise), errors left as unhandled rejections of a
spawned promise, and uncaught exceptions that crash the process.
-/

namespace Build

/-- Behaviour of one staged file during normalization.  A `content` file reads and
writes normally; `readFault` models a file whose read stream emits an error event;
`writeFault` models a file whose destination write stream emits an error event.
The payload of the fault constructors is the file content (never observed). -/
inductive FileSpec where
  | content (data : String)
  | readFault (data : String)
  | writeFault (data : String)

mutual
/-- A staging-directory tree, as left behind by the compiler invocation: a file, or a
directory of named entries. -/
inductive StageTree where
  | file (spec : FileSpec)
  | dir (entries : StageList)
/-- Entries of a staging directory, in the order readdirSync lists them. -/
inductive StageList where
  | nil
  | cons (name : String) (t : StageTree) (rest : StageList)
end

/-- An output-directory tree: the destination that the normalizer populates. -/
inductive OutTree where
  | file (data : String)
  | dir (entries : List (String × OutTree))

/-- Test from the build script line 39: the regex matches names ending in a literal
".js" or a literal ".d.ts".  Written over the character list so that it evaluates
inside the kernel. -/
def qualifies (name : String) : Bool :=
  List.isSuffixOf (".js").data name.data || List.isSuffixOf (".d.ts").data name.data

/-- Directory-entry lookup by name. -/
def lookupEntry : List (String × OutTree) → String → Option OutTree
  | [], _ => none
  | (n, t) :: rest, m => if n = m then some t else lookupEntry rest m

/-- Replace the entry with the given name, or append it. -/
def setEntry : List (String × OutTree) → String → OutTree → List (String × OutTree)
  | [], m, t => [(m, t)]
  | (n, u) :: rest, m, t => if n = m then (m, t) :: rest else (n, u) :: setEntry rest m t

/-- Model of writing a file at a relative path below a directory, as fs.writeFileSync
or a write stream does: it fails (`none`, the ENOENT / EISDIR / ENOTDIR errors) when
an intermediate directory of the path is missing or is a plain file, or when the
target name is an existing directory.  It never creates intermediate directories. -/
def writeAt : OutTree → List String → String → Option OutTree
  | OutTree.dir es, [n], data =>
    match lookupEntry es n with
    | some (OutTree.dir _) => none
    | _ => some (OutTree.dir (setEntry es n (OutTree.file data)))
  | OutTree.dir es, n :: rest, data =>
    match lookupEntry es n with
    | some (OutTree.dir sub) =>
      match writeAt (OutTree.dir sub) rest data with
      | some t => some (OutTree.dir (setEntry es n t))
      | none => none
    | _ => none
  | _, _, _ => none

/-- Read the file content found at a relative path, if any. -/
def readAt : OutTree → List String → Option String
  | OutTree.file data, [] => some data
  | OutTree.dir es, n :: rest =>
    match lookupEntry es n with
    | some t => readAt t rest
    | none => none
  | _, _ => none

/-- State threaded through the walk: the output tree being populated, the arguments of
every fs.mkdirSync call the walk performs (all of them staging-side paths, because the
script passes tmpDir to mkdirSync on line 41), and the arguments of every rmSync call
(staging-side paths; all these calls are wrapped in ignoreError). -/
structure WalkState where
  out : OutTree
  mkdirStagingCalls : List (List String)
  removeCalls : List (List String)

/-- Result of running one processFiles invocation sequentially.  `ok` means its promise
resolved; `rejected` means its promise rejected (a throw before or during an awaited
step); `crashed` means the whole process died from an uncaught exception (a stream
error event with no listener).  `pendingRejection` records whether some promise spawned
below this invocation rejected without anyone awaiting it: an unhandled rejection. -/
inductive StepRes where
  | ok (st : WalkState) (pendingRejection : Bool)
  | rejected (st : WalkState) (pendingRejection : Bool)
  | crashed (st : WalkState)

/-- Outcome of handling one file entry of the loop: the walk either proceeds with an
updated state, or this processFiles invocation rejects, or the process crashes. -/
inductive FileRes where
  | proceed (st : WalkState)
  | reject (st : WalkState)
  | crash (st : WalkState)

/-- Embedding of the file branch of the processFiles loop (build script lines 38 to
48) together with processFile (lines 22 to 31).

For a file entry whose name qualifies, the script first calls fs.mkdirSync on the
staging directory path when outDirCreated is falsy (line 41, recorded here; the call
never creates anything under the output directory), then writes the license to the
destination with writeFileSync (line 44; a failure here throws inside the async
function, rejecting this invocation and skipping the rest of the loop), then awaits
processFile, which opens a read stream on the staged file and a write stream on the
destination, writes the license and pipes the content: the destination ends up
holding the license followed by the content.  Only the write stream has an error
listener (reject); a read-stream error event has no listener and crashes the process.
After the file is handled (and also when its name does not qualify) the staged file
is removed, best effort. -/
def fileStep (license : String) (name : String) (spec : FileSpec)
    (tmpPath outPath : List String) (st : WalkState) (odc : Bool) : FileRes :=
  if qualifies name then
    let st1 :=
      if odc then st
      else { st with mkdirStagingCalls := st.mkdirStagingCalls ++ [tmpPath] }
    match writeAt st1.out (outPath ++ [name]) license with
    | none => FileRes.reject st1
    | some out1 =>
      match spec with
      | FileSpec.readFault _ => FileRes.crash { st1 with out := out1 }
      | FileSpec.writeFault _ => FileRes.reject { st1 with out := out1 }
      | FileSpec.content data =>
        match writeAt out1 (outPath ++ [name]) (license ++ data) with
        | none => FileRes.reject { st1 with out := out1 }
        | some out2 =>
          FileRes.proceed
            { st1 with out := out2, removeCalls := st1.removeCalls ++ [tmpPath ++ [name]] }
  else
    FileRes.proceed { st with removeCalls := st.removeCalls ++ [tmpPath ++ [name]] }

/-- What handling one entry of the loop produced: `spawned` carries the result of the
promise the script spawned (and never awaited) for a subdirectory entry, `stepped`
the result of handling a file entry in place. -/
inductive ItemRes where
  | spawned (r : StepRes)
  | stepped (r : FileRes)

mutual
/-- Embedding of processFiles (build script lines 33 to 51), run sequentially over
the listed entries.

For a subdirectory entry the script calls itself recursively but never awaits the
returned promise (line 37 assigns it into outDirCreated through a boolean or); a
rejection of that child promise therefore becomes a pending unhandled rejection of the
run, while the parent walk continues.  Afterwards outDirCreated holds the (truthy)
promise, so the mkdirSync guard is skipped for later files.  File entries are handled
by fileStep; after the loop the staged directory itself is removed (best effort). -/
def walkList (license : String) :
    StageList → List String → List String → WalkState → Bool → Bool → StepRes
  | StageList.nil, tmpPath, _outPath, st, _odc, pending =>
    StepRes.ok { st with removeCalls := st.removeCalls ++ [tmpPath] } pending
  | StageList.cons name t rest, tmpPath, outPath, st, odc, pending =>
    match walkItem license name t tmpPath outPath st odc with
    | ItemRes.spawned (StepRes.crashed stc) => StepRes.crashed stc
    | ItemRes.spawned (StepRes.ok stc pc) =>
      walkList license rest tmpPath outPath stc true (pending || pc)
    | ItemRes.spawned (StepRes.rejected stc _pc) =>
      walkList license rest tmpPath outPath stc true true
    | ItemRes.stepped (FileRes.proceed st2) =>
      walkList license rest tmpPath outPath st2 odc pending
    | ItemRes.stepped (FileRes.reject st2) => StepRes.rejected st2 pending
    | ItemRes.stepped (FileRes.crash st2) => StepRes.crashed st2

/-- One entry of the loop: a subdirectory entry spawns a recursive walk (with a fresh
outDirCreated and no pending rejections of its own), a file entry runs fileStep. -/
def walkItem (license : String) (name : String) :
    StageTree → List String → List String → WalkState → Bool → ItemRes
  | StageTree.dir sub, tmpPath, outPath, st, _odc =>
    ItemRes.spawned (walkList license sub (tmpPath ++ [name]) (outPath ++ [name]) st false false)
  | StageTree.file spec, tmpPath, outPath, st, odc =>
    ItemRes.stepped (fileStep license name spec tmpPath outPath st odc)
end

/-- Observable outcome of a whole run: the process exit code, whether an error got
printed before exiting, whether removal of the staging-directory root was attempted
(either by the walk itself or by kill), and the final output tree. -/
structure RunOutcome where
  exitCode : Nat
  errorPrinted : Bool
  stagingRootRemoveAttempted : Bool
  out : OutTree

/-- Initial walk state over a given starting output tree. -/
def initState (startOut : OutTree) : WalkState :=
  ⟨startOut, [], []⟩

/-- Embedding of processFiles(tmpDir, outDir, license).catch(error => kill(1, error))
(build script line 97), starting from a given output tree.  A rejection of the
top-level promise reaches the catch handler: kill(1, error) prints the error, removes
the staging directory and exits with status 1.  A resolution with a pending unhandled
child rejection crashes the process afterwards: the runtime prints the rejection
reason and exits 1, and kill is never invoked.  An uncaught stream error likewise
prints and exits 1 without invoking kill. -/
def runNormalizationFrom (startOut : OutTree) (staging : StageList)
    (license : String) : RunOutcome :=
  match walkList license staging [] [] (initState startOut) false false with
  | StepRes.ok st pending =>
    if pending then ⟨1, true, st.removeCalls.contains [], st.out⟩
    else ⟨0, false, st.removeCalls.contains [], st.out⟩
  | StepRes.rejected st _ => ⟨1, true, true, st.out⟩
  | StepRes.crashed st => ⟨1, true, st.removeCalls.contains [], st.out⟩

/-- Whether the normalization phase fails (its promise rejects, a spawned promise is
left with an unhandled rejection, or the process crashes), for a walk started on an
empty output directory. -/
def normalizationFails (staging : StageList) (license : String) : Bool :=
  match walkList license staging [] [] (initState (OutTree.dir [])) false false with
  | StepRes.ok _ pending => pending
  | StepRes.rejected _ _ => true
  | StepRes.crashed _ => true

/-- Model of removing every listed entry of a directory, as empty(path) does (build
script lines 10 to 14): each readdirSync entry is removed in turn (each removal
best-effort; in this fault-free model every removal succeeds). -/
def eraseName (es : List (String × OutTree)) (n : String) : List (String × OutTree) :=
  es.filter (fun q => q.1 != n)

/-- The directory contents after empty(path) has run over its entry list. -/
def emptyDir (es : List (String × OutTree)) : List (String × OutTree) :=
  es.foldl (fun acc p => eraseName acc p.1) es

/-- Truthiness of a spawnSync status as tested on line 73: null and 0 are falsy. -/
def statusTruthy : Option Nat → Bool
  | none => false
  | some s => s != 0

/-- Embedding of the tail of the build script (lines 90 to 97) from the point where
the compiler has been invoked: if the compiler status is truthy, kill(status) removes
the staging directory and exits with that status, printing nothing of its own and
leaving the output directory untouched; otherwise the script empties the output
directory and runs the normalization walk over the staging tree. -/
def buildScript (compilerStatus : Option Nat) (staging : StageList)
    (license : String) (priorOut : List (String × OutTree)) : RunOutcome :=
  if statusTruthy compilerStatus then
    ⟨compilerStatus.getD 1, false, true, OutTree.dir priorOut⟩
  else
    runNormalizationFrom (OutTree.dir (emptyDir priorOut)) staging license

mutual
/-- Relative staging paths of every qualifying file in the tree: the writes the walk
dispatches when nothing fails. -/
def allWrites : StageList → List String → List (List String)
  | StageList.nil, _ => []
  | StageList.cons name t rest, path => treeWrites name t path ++ allWrites rest path
/-- The qualifying writes below one named entry. -/
def treeWrites (name : String) : StageTree → List String → List (List String)
  | StageTree.dir sub, path => allWrites sub (path ++ [name])
  | StageTree.file _, path => if qualifies name then [path ++ [name]] else []
end

/-- Relative staging paths of the writes whose completion the promise returned by
processFiles transitively awaits before resolving: the loop awaits processFile for the
file entries it handles itself (line 45), but the recursive call made for a
subdirectory entry (line 37) is never awaited, so no write below a subdirectory is
covered by the top-level promise. -/
def awaitedWrites : StageList → List String → List (List String)
  | StageList.nil, _ => []
  | StageList.cons _ (StageTree.dir _) rest, path => awaitedWrites rest path
  | StageList.cons name (StageTree.file _) rest, path =>
    (if qualifies name then [path ++ [name]] else []) ++ awaitedWrites rest path

/-- Entries of the final output directory of a run. -/
def RunOutcome.outEntries (r : RunOutcome) : List (String × OutTree) :=
  match r.out with
  | OutTree.dir es => es
  | OutTree.file _ => []

/-- Parsed JSON5 value, the result of json5.parse on the configuration document.
Numbers are modelled as integers. -/
inductive JVal where
  | null
  | bool (b : Bool)
  | num (n : Int)
  | str (s : String)
  | arr (elems : List JVal)
  | lit (fields : List (String × JVal))

/-- JavaScript truthiness of a parsed value: null, false, 0 and the empty string are
falsy; arrays and objects are always truthy. -/
def truthy : JVal → Bool
  | JVal.null => false
  | JVal.bool b => b
  | JVal.num n => n != 0
  | JVal.str s => s != ""
  | JVal.arr _ => true
  | JVal.lit _ => true

/-- Field lookup in an object literal. -/
def lookupField : List (String × JVal) → String → Option JVal
  | [], _ => none
  | (n, v) :: rest, k => if n = k then some v else lookupField rest k

/-- JavaScript member access v.k on a parsed value: a field of an object, and
undefined (none) on every other value; the script only performs it after the
object check, or through optional chaining. -/
def member : JVal → String → Option JVal
  | JVal.lit fields, k => lookupField fields k
  | _, _ => none

/-- Truthiness of a possibly-undefined value: undefined is falsy. -/
def truthyOpt : Option JVal → Bool
  | none => false
  | some v => truthy v

/-- The optional chain tsconfig.compilerOptions?.outDir from line 65. -/
def optChainOutDir (cfg : JVal) : Option JVal :=
  match member cfg ("compilerOptions") with
  | none => none
  | some co => member co ("outDir")

/-- Test from line 59: typeof x === the object string holds of objects, arrays and
null alike. -/
def typeofIsObject : JVal → Bool
  | JVal.null => true
  | JVal.arr _ => true
  | JVal.lit _ => true
  | _ => false

/-- Array test from line 59 (instanceof Array). -/
def isArrayVal : JVal → Bool
  | JVal.arr _ => true
  | _ => false

/-- The directory of the build script, against which relative paths resolve. -/
def projectRoot : String :=
  ("/repo")

/-- Error a run of the resolver can end with: one of the script's own configuration
errors (the three explicit throws of lines 59 to 67, and the propagated read or
parse failure for an absent or malformed document), or the type error Node's path
library raises when path.resolve is handed a non-string argument on line 67. -/
inductive ResolveErr where
  | configError (msg : String)
  | typeError

/-- Resolution of a string path against the script directory, as path.resolve does
with string arguments: an absolute path resolves to itself, a relative one against
the project root. -/
def resolvePathStr (s : String) : String :=
  if List.isPrefixOf ("/").data s.data then s else projectRoot ++ ("/") ++ s

/-- Model of path.resolve(__dirname, v) applied to the configured outDir value (line
67).  Node's path library validates its arguments: a non-string argument makes
path.resolve throw TypeError ERR_INVALID_ARG_TYPE, which propagates out of
resolveOutDir; a string argument resolves as resolvePathStr. -/
def resolveConfigPath : JVal → Except ResolveErr String
  | JVal.str s => Except.ok (resolvePathStr s)
  | _ => Except.error ResolveErr.typeError

/-- Embedding of resolveOutDir (build script lines 57 to 68).  The argument is the
result of reading and parsing tsconfig.json: none models the read or the parse
throwing (file absent or malformed), in which case that exception propagates out of
resolveOutDir; the remaining checks mirror lines 59 to 67, and the final line hands
the configured value to path.resolve. -/
def resolveOutDir (parsed : Option JVal) : Except ResolveErr String :=
  match parsed with
  | none => Except.error (ResolveErr.configError ("tsconfig.json absent or malformed"))
  | some tsconfig =>
    if !truthy tsconfig || !typeofIsObject tsconfig || isArrayVal tsconfig then
      Except.error (ResolveErr.configError ("Invalid tsconfig.json file in project root"))
    else if truthyOpt (member tsconfig ("extends")) then
      Except.error (ResolveErr.configError ("No support for extends option in tsconfig.json yet"))
    else if !truthyOpt (optChainOutDir tsconfig) then
      Except.error
        (ResolveErr.configError ("The tsconfig.json file must have a compilerOptions.outDir option"))
    else
      resolveConfigPath ((optChainOutDir tsconfig).getD JVal.null)

/-- The configured compilerOptions.outDir value a parse result carries, with
undefined collapsed to null (both non-strings for path.resolve). -/
def configuredOutDir (parsed : Option JVal) : JVal :=
  (parsed.bind optChainOutDir).getD JVal.null

/-- Whether a parsed value is a string. -/
def isStringVal : JVal → Bool
  | JVal.str _ => true
  | _ => false

/-- Whether a parsed value is a JSON object. -/
def isObjVal : JVal → Bool
  | JVal.lit _ => true
  | _ => false

/-- Predicate written from the specification wording for the resolver: the
configuration is in error when the document is absent or malformed (no parse result),
when the parsed document is not a JSON object, when it uses the unsupported extends
inheritance option (a non-degenerate, truthy value), or when it lacks a usable
compilerOptions.outDir setting (no truthy value there). -/
def specConfigError : Option JVal → Bool
  | none => true
  | some cfg =>
    !isObjVal cfg || truthyOpt (member cfg ("extends")) || !truthyOpt (optChainOutDir cfg)

/-- Staging tree with one qualifying file inside a subdirectory: sub/a.js holding the
content X.  This is the smallest input on which the walk must create a destination
subdirectory. -/
def nestedStaging : StageList :=
  StageList.cons ("sub")
    (StageTree.dir (StageList.cons ("a.js") (StageTree.file (FileSpec.content ("X"))) StageList.nil))
    StageList.nil

/-- Staging tree with one qualifying top-level file whose read stream errors. -/
def readFaultStaging : StageList :=
  StageList.cons ("a.js") (StageTree.file (FileSpec.readFault ("X"))) StageList.nil

/-- Staging tree with one qualifying top-level file whose write stream errors. -/
def writeFaultStaging : StageList :=
  StageList.cons ("a.js") (StageTree.file (FileSpec.writeFault ("X"))) StageList.nil

/-- Arguments of every fs.mkdirSync call a normalization run performs, in order
(all of them staging-side paths; see fileStep). -/
def normalizationMkdirCalls (staging : StageList) (license : String) :
    List (List String) :=
  match walkList license staging [] [] (initState (OutTree.dir [])) false false with
  | StepRes.ok st _ => st.mkdirStagingCalls
  | StepRes.rejected st _ => st.mkdirStagingCalls
  | StepRes.crashed st => st.mkdirStagingCalls

/-- A well-formed configuration document: an object with compilerOptions.outDir set
to the relative path dist. -/
def tsconfigSample : JVal :=
  JVal.lit [(("compilerOptions"), JVal.lit [(("outDir"), JVal.str ("dist"))])]

/-- A configuration document whose compilerOptions.outDir is the number 5: valid
JSON5, truthy, so it passes every check of resolveOutDir and reaches path.resolve
with a non-string argument. -/
def tsconfigNumSample : JVal :=
  JVal.lit [(("compilerOptions"), JVal.lit [(("outDir"), JVal.num 5)])]

end Build

namespace Lib

/-- A JavaScript function value as the utilities see it: its name (the name property,
an arbitrary string, empty for anonymous functions) and its behaviour on a defined
window.  W is the window type, A the result type. -/
structure BrowserFn (W : Type) (A : Type) where
  name : String
  apply : W → A

/-- Model of the EnvironmentError class (EnvironmentError.ts): an error object storing
the offending function, the message built by the constructor, and the name property
(set to the EnvironmentError string on the prototype, line 30, as non-enumerable). -/
structure EnvironmentError (W : Type) (A : Type) where
  fn : BrowserFn W A
  message : String
  name : String

/-- Embedding of new EnvironmentError(fn) (EnvironmentError.ts lines 8 to 12): the
message prefix is the Function-plus-name form when fn.name is truthy (a non-empty
string) and the Anonymous-function form otherwise; the constructor then stores fn. -/
def mkEnvironmentError {W A : Type} (fn : BrowserFn W A) : EnvironmentError W A :=
  ⟨fn,
    (if fn.name = "" then ("Anonymous function") else ("Function ") ++ fn.name)
      ++ (" executed on wrong environment, expected browser"),
    ("EnvironmentError")⟩

/-- Console messages the utilities can emit, with their channel.  The jest suites
(the EnvironmentError and utils test files) observe the warn channel through a spy on
console.warn. -/
inductive ConsoleMsg (W : Type) (A : Type) where
  | errorMsg (e : EnvironmentError W A)
  | warnMsg (e : EnvironmentError W A)

/-- Embedding of onBrowser(fn, fallbackValue) (utils.ts lines 32 to 34).  The global
window is modelled as an Option: when defined it is a DOM Window object and hence
truthy, so the conditional on window is definedness. -/
def onBrowser {W A : Type} (w : Option W) (fn : BrowserFn W A) (fallbackValue : A) : A :=
  match w with
  | some win => fn.apply win
  | none => fallbackValue

/-- Embedding of onBrowserOrThrow (utils.ts lines 52 to 58): the function result on a
browser, a thrown EnvironmentError otherwise. -/
def onBrowserOrThrow {W A : Type} (w : Option W) (fn : BrowserFn W A) :
    Except (EnvironmentError W A) A :=
  match w with
  | some win => Except.ok (fn.apply win)
  | none => Except.error (mkEnvironmentError fn)

/-- Embedding of onBrowserOrWarn (utils.ts lines 81 to 87): when window is undefined
the function passes a fresh EnvironmentError to console.error (line 84) and then
returns exactly what onBrowser would; the returned pair carries the emitted console
messages in order. -/
def onBrowserOrWarn {W A : Type} (w : Option W) (fn : BrowserFn W A) (fallbackValue : A) :
    A × List (ConsoleMsg W A) :=
  match w with
  | some win => (fn.apply win, [])
  | none => (fallbackValue, [ConsoleMsg.errorMsg (mkEnvironmentError fn)])

/-- Sample named function over a numeric window model, used at concrete inputs. -/
def idNatFn : BrowserFn Nat Nat := ⟨("idNat"), fun w => w⟩

/-- Sample constant function, mirroring the fn0 helper of the jest suites. -/
def fnZero : BrowserFn Nat Nat := ⟨("fn0"), fun _ => 0⟩

/-- Sample function with a non-empty name. -/
def namedSample : BrowserFn Nat Nat := ⟨("scrollFn"), fun w => w⟩

/-- Sample anonymous function: its name property is the empty string. -/
def anonSample : BrowserFn Nat Nat := ⟨(""), fun w => w⟩

end Lib

namespace Build

/-- Helper for the emptying lemma: every element surviving the fold that erases each
listed name was already in the accumulator. -/
theorem mem_foldl_eraseName {x : String × OutTree} :
    ∀ (l acc : List (String × OutTree)),
      x ∈ l.foldl (fun acc p => eraseName acc p.1) acc → x ∈ acc := by
  intro l
  induction l with
  | nil => intro acc h; simpa using h
  | cons p l ih =>
    intro acc h
    have h1 := ih (eraseName acc p.1) (by simpa using h)
    simpa [eraseName] using (List.mem_filter.mp h1).1

/-- Helper for the emptying lemma: an element surviving the fold has none of the
listed names. -/
theorem foldl_eraseName_removes {x : String × OutTree} :
    ∀ (l acc : List (String × OutTree)),
      x ∈ l.foldl (fun acc p => eraseName acc p.1) acc → ∀ p ∈ l, x.1 ≠ p.1 := by
  intro l
  induction l with
  | nil => intro acc _ p hp; simp at hp
  | cons q l ih =>
    intro acc h p hp
    have hmem : x ∈ eraseName acc q.1 :=
      mem_foldl_eraseName l (eraseName acc q.1) (by simpa using h)
    rcases List.mem_cons.mp hp with rfl | hp2
    · have h2 : x ∈ acc ∧ ¬x.1 = p.1 := by simpa [eraseName] using hmem
      exact h2.2
    · exact ih (eraseName acc q.1) (by simpa using h) p hp2

/-- Emptying a directory removes every entry: the fault-free model of empty(path)
always ends on an empty listing. -/
theorem emptyDir_eq_nil (es : List (String × OutTree)) : emptyDir es = [] := by
  apply List.eq_nil_iff_forall_not_mem.mpr
  intro x hx
  exact foldl_eraseName_removes es es hx x (mem_foldl_eraseName es es hx) rfl

/-- C1.  The claim states that after a run every staged file with a qualifying suffix
appears at the identical relative path of the output tree, license text prepended.
The code violates this for files inside subdirectories: on the staging tree holding
only sub/a.js the finished run leaves no file at sub/a.js in the output tree (the
script never creates the destination subdirectory, its mkdirSync call on line 41
targets the staging path tmpDir instead of outDir), and the run ends with exit
status 1 rather than success. -/
theorem nested_qualifying_file_lost :
    readAt (runNormalizationFrom (OutTree.dir []) nestedStaging ("L")).out
        [("sub"), ("a.js")] = none
    ∧ (runNormalizationFrom (OutTree.dir []) nestedStaging ("L")).exitCode = 1 :=
  ⟨rfl, rfl⟩

/-- C2.  The claim states that the walk creates any needed destination
subdirectories before writing a nested qualifying file.  The code instead calls
fs.mkdirSync on the staging directory path (line 41): on the staging tree holding
only sub/a.js, the run's only mkdirSync call targets the staging path sub, and the
output tree ends without any sub entry, so no destination subdirectory was ever
created. -/
theorem mkdir_targets_staging_only :
    normalizationMkdirCalls nestedStaging ("L") = [[("sub")]]
    ∧ lookupEntry (runNormalizationFrom (OutTree.dir []) nestedStaging ("L")).outEntries
        ("sub") = none :=
  ⟨rfl, rfl⟩

/-- C3.  The claim states that when the promise returned by the walk resolves, every
qualifying write, including writes in nested subdirectories, has been awaited.  In
the code the recursive call for a subdirectory is never awaited (line 37): on the
staging tree holding only sub/a.js, the write of sub/a.js is dispatched by the walk
but is not among the writes the top-level promise awaits before resolving. -/
theorem nested_write_not_awaited :
    (allWrites nestedStaging []).contains [("sub"), ("a.js")] = true
    ∧ (awaitedWrites nestedStaging []).contains [("sub"), ("a.js")] = false :=
  ⟨rfl, rfl⟩

/-- C4.  The claim states that every read or write error aborts the run with a
non-zero status after attempting to remove the staging directory.  The code only
registers an error listener on the write stream (line 28): a staged file whose read
stream errors crashes the process with status 1 without kill ever running, so no
removal of the staging-directory root is attempted; by contrast a write-stream error
rejects, reaches the catch handler and kill(1, error), which does attempt the
removal. -/
theorem read_error_skips_cleanup :
    (runNormalizationFrom (OutTree.dir []) readFaultStaging ("L")).exitCode = 1
    ∧ (runNormalizationFrom (OutTree.dir []) readFaultStaging ("L")).stagingRootRemoveAttempted
        = false
    ∧ (runNormalizationFrom (OutTree.dir []) writeFaultStaging ("L")).exitCode = 1
    ∧ (runNormalizationFrom (OutTree.dir []) writeFaultStaging ("L")).stagingRootRemoveAttempted
        = true :=
  ⟨rfl, rfl, rfl, rfl⟩

/-- C5, counterexample to the claim as stated.  On a document whose
compilerOptions.outDir is the truthy number 5 (valid JSON5), none of the claimed
failure conditions holds — the document is present, well formed, an object, has no
extends option and does not lack the outDir setting — yet the resolver does not
return a resolved absolute path: every check passes and the final
path.resolve(tsconfig.compilerOptions.outDir) throws TypeError ERR_INVALID_ARG_TYPE
on the non-string argument. -/
theorem resolveOutDir_nonstring_not_resolved :
    specConfigError (some tsconfigNumSample) = false
    ∧ resolveOutDir (some tsconfigNumSample) = Except.error ResolveErr.typeError :=
  ⟨rfl, rfl⟩

/-- C5, amended.  The output directory resolver fails with a configuration error
exactly when the configuration document is absent or malformed (the parse yields
nothing), is not a JSON object, uses the unsupported extends inheritance option, or
lacks the required compilerOptions.outDir setting; in every other case, when the
configured output-directory value is a string it returns that value resolved to an
absolute path, and when the configured value is a truthy non-string it fails with
the type error path resolution raises instead of returning a path. -/
theorem resolveOutDir_spec_amended (parsed : Option JVal) :
    ((∃ m, resolveOutDir parsed = Except.error (ResolveErr.configError m))
        ↔ specConfigError parsed = true)
    ∧ (∀ s, specConfigError parsed = false → configuredOutDir parsed = JVal.str s →
        resolveOutDir parsed = Except.ok (resolvePathStr s))
    ∧ (specConfigError parsed = false → isStringVal (configuredOutDir parsed) = false →
        resolveOutDir parsed = Except.error ResolveErr.typeError) := by
  cases parsed with
  | none => simp [resolveOutDir, specConfigError]
  | some cfg =>
    cases cfg with
    | null => simp [resolveOutDir, specConfigError, truthy, typeofIsObject, isArrayVal, isObjVal]
    | bool b =>
      cases b <;>
        simp [resolveOutDir, specConfigError, truthy, typeofIsObject, isArrayVal, isObjVal]
    | num n => simp [resolveOutDir, specConfigError, truthy, typeofIsObject, isArrayVal, isObjVal]
    | str s => simp [resolveOutDir, specConfigError, truthy, typeofIsObject, isArrayVal, isObjVal]
    | arr elems =>
      simp [resolveOutDir, specConfigError, truthy, typeofIsObject, isArrayVal, isObjVal]
    | lit fields =>
      cases he : truthyOpt (member (JVal.lit fields) ("extends")) with
      | true =>
        simp [resolveOutDir, specConfigError, truthy, typeofIsObject, isArrayVal, isObjVal, he]
      | false =>
        cases ho : truthyOpt (optChainOutDir (JVal.lit fields)) with
        | true =>
          cases hv : (optChainOutDir (JVal.lit fields)).getD JVal.null <;>
            simp [resolveOutDir, specConfigError, truthy, typeofIsObject, isArrayVal,
              isObjVal, he, ho, hv, configuredOutDir, isStringVal, resolveConfigPath]
        | false =>
          simp [resolveOutDir, specConfigError, truthy, typeofIsObject, isArrayVal, isObjVal,
            he, ho]

/-- Witness for the amended C5: on a well-formed sample configuration with the
string outDir dist, the hypotheses hold at the concrete input and the resolver
returns the configured directory resolved against the project root. -/
theorem resolveOutDir_spec_amended_witness :
    resolveOutDir (some tsconfigSample) = Except.ok (("/repo/dist")) := by
  rw [(resolveOutDir_spec_amended (some tsconfigSample)).2.1 ("dist") (by decide) rfl]
  rfl

/-- C6.  The build script exits with status 0 on success; when the external compiler
exits with a non-zero status s the script exits with that same status s after
attempting staging-directory cleanup; and when the normalization phase fails the
script exits with status 1 with the error printed. -/
theorem buildScript_exit_codes (cs : Option Nat) (staging : StageList)
    (license : String) (prior : List (String × OutTree)) :
    (∀ s, cs = some s → s ≠ 0 →
        (buildScript cs staging license prior).exitCode = s
        ∧ (buildScript cs staging license prior).stagingRootRemoveAttempted = true)
    ∧ ((cs = none ∨ cs = some 0) → normalizationFails staging license = false →
        (buildScript cs staging license prior).exitCode = 0)
    ∧ ((cs = none ∨ cs = some 0) → normalizationFails staging license = true →
        (buildScript cs staging license prior).exitCode = 1
        ∧ (buildScript cs staging license prior).errorPrinted = true) := by
  refine ⟨?_, ?_, ?_⟩
  · intro s hcs hs
    subst hcs
    have ht : statusTruthy (some s) = true := by simp [statusTruthy, hs]
    simp [buildScript, ht]
  · intro hcs hnf
    have ht : statusTruthy cs = false := by rcases hcs with rfl | rfl <;> simp [statusTruthy]
    simp only [buildScript, ht, Bool.false_eq_true, if_false, emptyDir_eq_nil]
    cases hw : walkList license staging [] [] (initState (OutTree.dir [])) false false with
    | ok st pending =>
      simp only [normalizationFails, hw] at hnf
      simp [runNormalizationFrom, hw, hnf]
    | rejected st p => simp [normalizationFails, hw] at hnf
    | crashed st => simp [normalizationFails, hw] at hnf
  · intro hcs hnf
    have ht : statusTruthy cs = false := by rcases hcs with rfl | rfl <;> simp [statusTruthy]
    simp only [buildScript, ht, Bool.false_eq_true, if_false, emptyDir_eq_nil]
    cases hw : walkList license staging [] [] (initState (OutTree.dir [])) false false with
    | ok st pending =>
      simp only [normalizationFails, hw] at hnf
      simp [runNormalizationFrom, hw, hnf]
    | rejected st p => simp [runNormalizationFrom, hw]
    | crashed st => simp [runNormalizationFrom, hw]

/-- Witness for C6: a compiler failure with status 2 exits with status 2, and a
successful compile over an empty staging tree exits with status 0. -/
theorem buildScript_exit_codes_witness :
    (buildScript (some 2) StageList.nil ("L") []).exitCode = 2
    ∧ (buildScript none StageList.nil ("L") []).exitCode = 0 := by
  constructor
  · exact ((buildScript_exit_codes (some 2) StageList.nil ("L") []).1 2 rfl (by decide)).1
  · exact (buildScript_exit_codes none StageList.nil ("L") []).2.1 (Or.inl rfl) rfl

/-- C7.  Running the build twice in succession with the same configuration and the
same compiler output yields an identical final output tree, whatever the output
directory held before: the prior content is fully cleared before repopulation, so
the final tree of a second run started on the first run's output equals the first
run's output. -/
theorem buildScript_idempotent (staging : StageList) (license : String)
    (prior : List (String × OutTree)) :
    (buildScript none staging license
        ((buildScript none staging license prior).outEntries)).out
      = (buildScript none staging license prior).out := by
  simp [buildScript, statusTruthy, emptyDir_eq_nil]

end Build

namespace Lib

/-- C8.  onBrowserOrThrow throws an EnvironmentError exactly when the global window
is undefined (and the thrown error is the one built from fn); when window is defined
it returns fn applied to the window and throws nothing of its own. -/
theorem onBrowserOrThrow_spec {W A : Type} (w : Option W) (fn : BrowserFn W A) :
    ((∃ e, onBrowserOrThrow w fn = Except.error e) ↔ w = none)
    ∧ (w = none → onBrowserOrThrow w fn = Except.error (mkEnvironmentError fn))
    ∧ (∀ win, w = some win → onBrowserOrThrow w fn = Except.ok (fn.apply win)) := by
  cases w <;> simp [onBrowserOrThrow]

/-- Witness for C8: with a defined window the sample function's value is returned,
and with window undefined the constructed EnvironmentError is thrown. -/
theorem onBrowserOrThrow_spec_witness :
    onBrowserOrThrow (some 3) idNatFn = Except.ok 3
    ∧ onBrowserOrThrow (none : Option Nat) idNatFn
        = Except.error (mkEnvironmentError idNatFn) := by
  constructor
  · exact (onBrowserOrThrow_spec (some 3) idNatFn).2.2 3 rfl
  · exact (onBrowserOrThrow_spec none idNatFn).2.1 rfl

/-- C9.  The claim states that onBrowserOrWarn returns the same value as onBrowser in
both the browser and the non-browser case, with a console warning as the only
further difference.  The return values do agree in both cases, but on the failing
input (window undefined) the message the code emits goes through the console error
channel (utils.ts line 84), not the warn channel that the doc comment and the jest
suite (a console.warn spy) prescribe. -/
theorem onBrowserOrWarn_error_channel :
    (onBrowserOrWarn (none : Option Nat) fnZero 7).1 = onBrowser none fnZero 7
    ∧ (onBrowserOrWarn (some 5) fnZero 7).1 = onBrowser (some 5) fnZero 7
    ∧ (onBrowserOrWarn (none : Option Nat) fnZero 7).2
        = [ConsoleMsg.errorMsg (mkEnvironmentError fnZero)] := by
  exact ⟨rfl, rfl, rfl⟩

/-- C10.  The EnvironmentError constructor stores fn unchanged in its fn field, the
error's name is the EnvironmentError string, and its message is the
Function-name-executed form when fn has a non-empty name and the
Anonymous-function-executed form otherwise. -/
theorem mkEnvironmentError_spec {W A : Type} (fn : BrowserFn W A) :
    (mkEnvironmentError fn).fn = fn
    ∧ (mkEnvironmentError fn).name = ("EnvironmentError")
    ∧ (fn.name = "" → (mkEnvironmentError fn).message
        = ("Anonymous function executed on wrong environment, expected browser"))
    ∧ (fn.name ≠ "" → (mkEnvironmentError fn).message
        = (("Function ") ++ fn.name) ++ (" executed on wrong environment, expected browser")) := by
  refine ⟨rfl, rfl, ?_, ?_⟩
  · intro h
    rw [mkEnvironmentError]
    rw [h]
    rfl
  · intro h
    rw [mkEnvironmentError]
    rw [if_neg h]

/-- Witness for C10: the message for a function named scrollFn and for an anonymous
function, at concrete inputs. -/
theorem mkEnvironmentError_spec_witness :
    (mkEnvironmentError namedSample).message
      = ("Function scrollFn executed on wrong environment, expected browser")
    ∧ (mkEnvironmentError anonSample).message
      = ("Anonymous function executed on wrong environment, expected browser") := by
  constructor
  · rw [(mkEnvironmentError_spec namedSample).2.2.2 (by decide)]
    rfl
  · exact (mkEnvironmentError_spec anonSample).2.2.1 rfl

end Lib
